import Mathlib

/-!
Verification of the voynich secure-session subsystem against its
specification. The definitions below are a shallow embedding of
`src/crypto.rs` and `src/connection.rs`: byte strings are `List Nat`
(each entry a byte value), external cryptographic primitives
(ChaCha20-Poly1305, SHA-256, HKDF, X25519, Ed25519) are abstracted as
function parameters carrying only the contracts their crates document,
and fallible Rust code returns `Except`/explicit result types, with a
distinguished constructor for paths on which the Rust code panics.
-/

namespace Voynich

/-- Byte strings: each element is one byte value (kept below 256 by the
operations that construct them). -/
abbrev Bytes := List Nat

/-- ChaCha20Poly1305 block size in bytes (crypto.rs BLOCKSIZE). -/
def BLOCKSIZE : Nat := 64

/-- Size of the padding length header in bytes (crypto.rs HEADER_SIZE,
the size of one `u8`). -/
def HEADER_SIZE : Nat := 1

/-- Nonce size in bytes (crypto.rs NONCE_SIZE). -/
def NONCE_SIZE : Nat := 12

/-- Protocol version byte of the opening packet (crypto.rs PROTOCOL_VERSION). -/
def PROTOCOL_VERSION : Nat := 1

/-- Algorithm identifier byte for ChaCha20-Poly1305 (crypto.rs
ALGORITHM_CHACHA20POLY1305). -/
def ALGORITHM_CHACHA20POLY1305 : Nat := 0

/-- Length in bytes of an X25519 public key (crypto.rs KEY_LEN). -/
def KEY_LEN : Nat := 32

/-- Plaintext packet length computed by `EncryptingWriter::send`
(crypto.rs:85-87): the smallest multiple of `BLOCKSIZE` that is at least
`serialized_len + HEADER_SIZE`. The source computes this with an `f64`
ceiling; for every length below `2 ^ 53` the floating computation is
exact and coincides with this natural-number ceiling division. -/
def packet_length (serialized_len : Nat) : Nat :=
  (serialized_len + HEADER_SIZE + (BLOCKSIZE - 1)) / BLOCKSIZE * BLOCKSIZE

/-- Padding length computed by `EncryptingWriter::send` (crypto.rs:90-91).
The `as PaddingLength` cast to `u8` is the reduction modulo 256. -/
def padding_length (serialized_len : Nat) : Nat :=
  (packet_length serialized_len - serialized_len - HEADER_SIZE) % 256

/-- Plaintext packet assembled by `EncryptingWriter::send`
(crypto.rs:93-103): one header byte holding the padding length, the
serialized body, then `padding_length` random padding bytes. The random
source `OsRng.gen::<u8>()` is modelled by the byte stream `rand`. -/
def send_packet (serialized : Bytes) (rand : Nat → Nat) : Bytes :=
  padding_length serialized.length ::
    (serialized ++ (List.range (padding_length serialized.length)).map (fun i => rand i % 256))

/-- Outcome of a fallible Rust computation, with a distinguished value
for executions on which the Rust code panics. -/
inductive RResult (α : Type) where
  | ok (val : α)
  | err (msg : String)
  | panicked
deriving DecidableEq

/-- Abstract ChaCha20-Poly1305 AEAD, modelling the `chacha20poly1305`
crate: `enc nonce pt` is encryption with tag, `dec nonce ct` is
verified decryption, and decryption of an honestly sealed message
succeeds with the original plaintext. -/
structure AEAD where
  enc : Bytes → Bytes → Bytes
  dec : Bytes → Bytes → Option Bytes
  enc_dec : ∀ nonce pt, dec nonce (enc nonce pt) = some pt

/-- The `Cryptor::encrypt` output (crypto.rs:44-55): the fresh random
nonce followed by the ciphertext (the nonce is drawn by the caller of
this model). -/
def Cryptor.encrypt (a : AEAD) (nonce plaintext : Bytes) : Bytes :=
  nonce ++ a.enc nonce plaintext

/-- The `Cryptor::decrypt` body (crypto.rs:57-65). The source slices
`ciphertext[..NONCE_SIZE]` unconditionally, so a ciphertext shorter than
the nonce size panics with an out-of-bounds index instead of reaching
the decryption-error branch. -/
def Cryptor.decrypt (a : AEAD) (ciphertext : Bytes) : RResult Bytes :=
  if ciphertext.length < NONCE_SIZE then .panicked
  else
    match a.dec (ciphertext.take NONCE_SIZE) (ciphertext.drop NONCE_SIZE) with
    | some plaintext => .ok plaintext
    | none => .err "Decryption error"

/-- Result of one `DecryptingReader::read` call: a decoded body
(`Ok(Some(_))`), a clean end of stream (`Ok(None)`), an error
(`Err(_)`), or a panic of the task. -/
inductive ReadResult (β : Type) where
  | body (b : β)
  | endOfStream
  | err (msg : String)
  | panicked
deriving DecidableEq

/-- One `DecryptingReader::read` call (crypto.rs:145-165) on the next
length-delimited frame (`none` models the framed read yielding no
frame). After decryption the source computes
`message_len = plaintext.len() - HEADER_SIZE - padding_length` with
`usize` arithmetic and then slices
`plaintext[HEADER_SIZE..message_len + HEADER_SIZE]`: an empty plaintext
panics at `plaintext[..HEADER_SIZE]`, and a padding length exceeding
`plaintext.len() - HEADER_SIZE` panics (subtraction overflow in debug
builds, slice out of bounds after wrapping in release builds). `deser`
models `serde_cbor::from_slice`. -/
def DecryptingReader.read {β : Type} (a : AEAD) (deser : Bytes → Option β)
    (frame : Option Bytes) : ReadResult β :=
  match frame with
  | none => .endOfStream
  | some ciphertext =>
    match Cryptor.decrypt a ciphertext with
    | .panicked => .panicked
    | .err e => .err e
    | .ok plaintext =>
      match plaintext with
      | [] => .panicked
      | pad_len :: rest =>
        if rest.length < pad_len then .panicked
        else
          match deser (rest.take (rest.length - pad_len)) with
          | some b => .body b
          | none => .err "Decode error"

/-- One `EncryptingWriter::send` call (crypto.rs:81-110): serialize,
pad to a block multiple, encrypt under a fresh nonce, and emit the
resulting frame. `ser` models `serde_cbor::to_vec` on a body that
serializes successfully. -/
def EncryptingWriter.send {β : Type} (a : AEAD) (ser : β → Bytes)
    (rand : Nat → Nat) (nonce : Bytes) (message : β) : Bytes :=
  Cryptor.encrypt a nonce (send_packet (ser message) rand)

/-- Arithmetic facts about the packet sizing: the packet length is a
multiple of the block size, is at least the serialized length plus the
header, and exceeds it by at most `BLOCKSIZE - 1`, so the `u8` cast in
`padding_length` is lossless. -/
theorem packet_length_facts (n : Nat) :
    packet_length n % 64 = 0 ∧ n + 1 ≤ packet_length n ∧
      packet_length n - (n + 1) ≤ 63 ∧
      padding_length n = packet_length n - n - 1 := by
  simp only [packet_length, padding_length, HEADER_SIZE, BLOCKSIZE]
  omega

/-- Length of the assembled plaintext packet. -/
theorem send_packet_length (serialized : Bytes) (rand : Nat → Nat) :
    (send_packet serialized rand).length = packet_length serialized.length := by
  have h := packet_length_facts serialized.length
  simp only [send_packet, List.length_cons, List.length_append, List.length_map,
    List.length_range]
  omega

/-- Decrypting an honestly encrypted packet recovers the plaintext
(crypto.rs:44-65 composed). -/
theorem Cryptor.decrypt_encrypt (a : AEAD) (nonce pt : Bytes)
    (h : nonce.length = NONCE_SIZE) :
    Cryptor.decrypt a (Cryptor.encrypt a nonce pt) = .ok pt := by
  unfold Cryptor.decrypt Cryptor.encrypt
  have hlen : NONCE_SIZE ≤ (nonce ++ a.enc nonce pt).length := by
    simp [List.length_append, h]
  rw [if_neg (by omega)]
  have ht : (nonce ++ a.enc nonce pt).take NONCE_SIZE = nonce := by
    rw [← h]; exact List.take_left _ _
  have hd : (nonce ++ a.enc nonce pt).drop NONCE_SIZE = a.enc nonce pt := by
    rw [← h]; exact List.drop_left _ _
  rw [ht, hd, a.enc_dec]

/-- Reading a frame produced by the send path strips the header and the
padding and hands exactly the serialized bytes to the deserializer. -/
theorem read_of_sent_frame {β : Type} (a : AEAD) (deser : Bytes → Option β)
    (s : Bytes) (rand : Nat → Nat) (nonce : Bytes)
    (hnonce : nonce.length = NONCE_SIZE) :
    DecryptingReader.read a deser (some (Cryptor.encrypt a nonce (send_packet s rand))) =
      (match deser s with
        | some b => ReadResult.body b
        | none => ReadResult.err "Decode error") := by
  simp only [DecryptingReader.read]
  rw [Cryptor.decrypt_encrypt a nonce _ hnonce]
  have hpadlen :
      ((List.range (padding_length s.length)).map (fun i => rand i % 256)).length
        = padding_length s.length := by
    simp
  have h1 : send_packet s rand
      = padding_length s.length ::
          (s ++ (List.range (padding_length s.length)).map (fun i => rand i % 256)) := rfl
  rw [h1]
  have hrest :
      (s ++ (List.range (padding_length s.length)).map (fun i => rand i % 256)).length
        = s.length + padding_length s.length := by
    simp [List.length_append, hpadlen]
  simp only []
  rw [if_neg (by omega)]
  have h2 :
      (s ++ (List.range (padding_length s.length)).map (fun i => rand i % 256)).length
          - padding_length s.length = s.length := by
    omega
  rw [h2, List.take_left]

/-- Trivial AEAD instance used only to evaluate the model on concrete
inputs: sealing is the identity and opening always succeeds. -/
def idAEAD : AEAD where
  enc := fun _ pt => pt
  dec := fun _ ct => some ct
  enc_dec := fun _ _ => rfl

/-- C1: for every body that serializes successfully (`deser ∘ ser = id`
on it), sending it with `EncryptingWriter::send` and reading the emitted
frame with `DecryptingReader::read` under the same key returns exactly
the body, and the plaintext of the emitted record is a multiple of 64
bytes. The length bound keeps the model inside the range on which the
f64 packet-length computation of the source is exact. -/
theorem send_read_roundtrip {β : Type} (a : AEAD) (ser : β → Bytes)
    (deser : Bytes → Option β) (rand : Nat → Nat) (nonce : Bytes) (b : β)
    (hnonce : nonce.length = NONCE_SIZE)
    (hser : deser (ser b) = some b)
    (hsmall : (ser b).length + 1 ≤ 2 ^ 53) :
    DecryptingReader.read a deser (some (EncryptingWriter.send a ser rand nonce b)) =
        ReadResult.body b ∧
      (send_packet (ser b) rand).length % BLOCKSIZE = 0 := by
  constructor
  · rw [show EncryptingWriter.send a ser rand nonce b
        = Cryptor.encrypt a nonce (send_packet (ser b) rand) from rfl]
    rw [read_of_sent_frame a deser (ser b) rand nonce hnonce, hser]
  · rw [send_packet_length]
    have h := packet_length_facts (ser b).length
    simpa [BLOCKSIZE] using h.1

/-- Witness for C1: a concrete one-byte body round-trips and its
plaintext record is block-aligned. -/
theorem send_read_roundtrip_witness :
    (List.replicate 12 0 : Bytes).length = NONCE_SIZE ∧
    DecryptingReader.read idAEAD (fun l : Bytes => l.head?)
        (some (EncryptingWriter.send idAEAD (fun x : Nat => [x]) (fun _ => 0)
          (List.replicate 12 0) 7)) = ReadResult.body 7 ∧
    (send_packet [7] (fun _ => 0)).length % BLOCKSIZE = 0 := by
  have h := send_read_roundtrip idAEAD (fun x : Nat => [x]) (fun l => l.head?)
    (fun _ => 0) (List.replicate 12 0) 7 (by decide) rfl (by norm_num)
  exact ⟨by decide, h.1, h.2⟩

/-- C2: for a serialized body of length n, the plaintext packet has
length `ceil((n + 1) / 64) * 64`, the smallest multiple of 64 that is at
least n + 1; the padding length is `packet_len - 1 - n`, lies between 0
and 63 (so the u8 cast is lossless), and is stored in the single leading
byte of the packet. -/
theorem send_packet_sizing (serialized : Bytes) (rand : Nat → Nat)
    (hsmall : serialized.length + 1 ≤ 2 ^ 53) :
    (send_packet serialized rand).length = packet_length serialized.length ∧
    packet_length serialized.length = (serialized.length + 1 + 63) / 64 * 64 ∧
    serialized.length + 1 ≤ packet_length serialized.length ∧
    (∀ m, m % 64 = 0 → serialized.length + 1 ≤ m →
      packet_length serialized.length ≤ m) ∧
    padding_length serialized.length
      = packet_length serialized.length - 1 - serialized.length ∧
    padding_length serialized.length ≤ 63 ∧
    (send_packet serialized rand).headD 0 = padding_length serialized.length := by
  have h := packet_length_facts serialized.length
  refine ⟨send_packet_length serialized rand, ?_, h.2.1, ?_, ?_, ?_, rfl⟩
  · simp only [packet_length, HEADER_SIZE, BLOCKSIZE]
  · intro m hm hle
    simp only [packet_length, HEADER_SIZE, BLOCKSIZE]
    omega
  · omega
  · omega

/-- Witness for C2 at the boundary lengths named in the spec: length 0
and length 63 pad to one 64-byte block, length 64 pads to 128 bytes. -/
theorem send_packet_sizing_witness :
    packet_length 0 = 64 ∧ packet_length 63 = 64 ∧
    (send_packet (List.replicate 64 0) (fun _ => 0)).length = 128 ∧
    padding_length 64 = 63 := by
  have h := send_packet_sizing (List.replicate 64 0) (fun _ => 0) (by norm_num)
  refine ⟨by decide, by decide, ?_, by decide⟩
  rw [h.1]
  decide

/-- C7 evaluation at the failing input: a frame that decrypts to the
one-byte plaintext `[2]` carries `pad_len = 2`, which exceeds
`plaintext_len - 1 = 0`; `DecryptingReader::read` panics on the `usize`
underflow or the out-of-bounds slice instead of returning the Protocol
error the specification requires. -/
theorem read_inconsistent_padding_panics :
    DecryptingReader.read idAEAD (fun l : Bytes => some l)
      (some (List.replicate NONCE_SIZE 0 ++ [2])) = ReadResult.panicked := by
  decide

/-- C10: `Cryptor::decrypt`, hence `DecryptingReader::read`, is not
total on short frames: every framed ciphertext shorter than the 12-byte
nonce size panics on the out-of-bounds slice `ciphertext[..NONCE_SIZE]`
instead of reaching the Decrypt error path. -/
theorem short_frame_read_panics {β : Type} (a : AEAD) (deser : Bytes → Option β)
    (ciphertext : Bytes) (h : ciphertext.length < NONCE_SIZE) :
    Cryptor.decrypt a ciphertext = RResult.panicked ∧
    DecryptingReader.read a deser (some ciphertext) = ReadResult.panicked := by
  have hd : Cryptor.decrypt a ciphertext = RResult.panicked := by
    unfold Cryptor.decrypt
    rw [if_pos h]
  refine ⟨hd, ?_⟩
  simp only [DecryptingReader.read]
  rw [hd]

/-- Witness for C10 on a one-byte frame. -/
theorem short_frame_read_panics_witness :
    ([0] : Bytes).length < NONCE_SIZE ∧
    Cryptor.decrypt idAEAD [0] = RResult.panicked ∧
    DecryptingReader.read idAEAD (fun l : Bytes => some l) (some [0])
      = ReadResult.panicked := by
  have h := short_frame_read_panics idAEAD (fun l : Bytes => some l) [0] (by decide)
  exact ⟨by decide, h.1, h.2⟩

/-- The opening packet written by `send_ephemeral_public_key`
(crypto.rs:201-210): version byte, algorithm byte, then the raw public
key bytes. -/
def send_ephemeral_public_key (public_key : Bytes) : Bytes :=
  PROTOCOL_VERSION :: ALGORITHM_CHACHA20POLY1305 :: public_key

/-- The `read_peer_public_key` body (crypto.rs:212-254) applied to the
bytes produced by one `read_buf` call (`bytes_read` is the buffer
length; the final unreachable match arm of the source cannot occur for
a natural length). -/
def read_peer_public_key (buffer : Bytes) : Except String Bytes :=
  if buffer.length > 0 then
    if buffer.length = KEY_LEN + 2 then
      if buffer.headD 0 ≠ PROTOCOL_VERSION then
        .error "Wrong protocol version found in public key"
      else if (buffer.drop 1).headD 0 ≠ ALGORITHM_CHACHA20POLY1305 then
        .error "Unrecognized algorithm identifier found"
      else
        .ok (buffer.drop 2)
    else
      .error "Bad public key packet length"
  else
    .error "End of file found on stream"

/-- Characterization of the reads that yield a public key: exactly the
34-byte buffers whose first byte is the version 1 and whose second byte
is the algorithm identifier 0. -/
theorem read_peer_public_key_ok_iff (buffer : Bytes) :
    (∃ k, read_peer_public_key buffer = .ok k) ↔
      (buffer.length = KEY_LEN + 2 ∧ buffer.headD 0 = PROTOCOL_VERSION ∧
        (buffer.drop 1).headD 0 = ALGORITHM_CHACHA20POLY1305) := by
  unfold read_peer_public_key
  split_ifs with h1 h2 h3 h4 <;>
    simp_all [KEY_LEN, PROTOCOL_VERSION, ALGORITHM_CHACHA20POLY1305]

/-- Reading back an honestly sent opening packet yields the sent key. -/
theorem read_send_roundtrip (pk : Bytes) (hpk : pk.length = KEY_LEN) :
    read_peer_public_key (send_ephemeral_public_key pk) = .ok pk := by
  unfold read_peer_public_key send_ephemeral_public_key
  simp [hpk, KEY_LEN, PROTOCOL_VERSION, ALGORITHM_CHACHA20POLY1305]

/-- An Except value that is not an ok value is an error value. -/
theorem except_error_of_not_ok {α : Type} (x : Except String α)
    (h : ¬ ∃ a, x = .ok a) : ∃ e, x = .error e := by
  cases x with
  | error e => exact ⟨e, rfl⟩
  | ok a => exact absurd ⟨a, rfl⟩ h

/-- C6: `send_ephemeral_public_key` writes exactly the 34-byte packet
`0x01 0x00 || pk[32]`, and `read_peer_public_key` returns a key exactly
for a read of 34 bytes starting with bytes 1 and 0 — in that case the
returned key is the remaining 32 bytes — while any other first or
second byte, any other read length, and a zero-byte read produce an
error. -/
theorem opening_packet_spec (pk buffer : Bytes) (hpk : pk.length = KEY_LEN) :
    send_ephemeral_public_key pk
        = PROTOCOL_VERSION :: ALGORITHM_CHACHA20POLY1305 :: pk ∧
    (send_ephemeral_public_key pk).length = 34 ∧
    read_peer_public_key (send_ephemeral_public_key pk) = .ok pk ∧
    ((∃ k, read_peer_public_key buffer = .ok k) ↔
      (buffer.length = 34 ∧ buffer.headD 0 = 1 ∧ (buffer.drop 1).headD 0 = 0)) ∧
    (∀ k, read_peer_public_key buffer = .ok k → k = buffer.drop 2) ∧
    (¬ (buffer.length = 34 ∧ buffer.headD 0 = 1 ∧ (buffer.drop 1).headD 0 = 0) →
      ∃ e, read_peer_public_key buffer = .error e) := by
  refine ⟨rfl, ?_, read_send_roundtrip pk hpk, ?_, ?_, ?_⟩
  · simp [send_ephemeral_public_key, hpk, KEY_LEN]
  · simpa [KEY_LEN, PROTOCOL_VERSION, ALGORITHM_CHACHA20POLY1305] using
      read_peer_public_key_ok_iff buffer
  · intro k hk
    unfold read_peer_public_key at hk
    split_ifs at hk with h1 h2 h3 h4
    exact (Except.ok.inj hk).symm
  · intro hcond
    refine except_error_of_not_ok _ ?_
    rw [read_peer_public_key_ok_iff buffer]
    simpa [KEY_LEN, PROTOCOL_VERSION, ALGORITHM_CHACHA20POLY1305] using hcond

/-- Witness for C6: a concrete key round-trips, and a packet with a bad
version byte, a short packet, and an empty read all produce errors. -/
theorem opening_packet_spec_witness :
    (List.replicate 32 7 : Bytes).length = KEY_LEN ∧
    read_peer_public_key (send_ephemeral_public_key (List.replicate 32 7))
      = .ok (List.replicate 32 7) ∧
    (∃ e, read_peer_public_key (2 :: 0 :: List.replicate 32 7) = .error e) := by
  have h := opening_packet_spec (List.replicate 32 7)
    (2 :: 0 :: List.replicate 32 7) (by decide)
  exact ⟨by decide, h.2.2.1, h.2.2.2.2.2 (by decide)⟩

/-- Bytes of an ASCII string literal of the source. -/
def strBytes (s : String) : Bytes := s.toList.map Char.toNat

deriving instance DecidableEq for Except

/-- Model of `tor_client_lib::key::TorServiceId`: the textual form of
the identifier (`to_string`, held as bytes) and the result of its
`verifying_key()` derivation. -/
structure TorServiceId where
  text : Bytes
  verifying_key : Except String Bytes
deriving DecidableEq

/-- The `generate_symmetric_key` body (crypto.rs:187-195): HKDF-SHA256
keyed with no salt over the shared secret, expanded with info string
"encryption" to a 32-byte key. `hkdfExpand` models the `hkdf` crate,
taking salt, input key material, info, and output length. -/
def generate_symmetric_key
    (hkdfExpand : Option Bytes → Bytes → Bytes → Nat → Option Bytes)
    (shared : Bytes) : Except String Bytes :=
  match hkdfExpand none shared (strBytes "encryption") 32 with
  | some key => .ok key
  | none => .error "Invalid length"

/-- One side of `key_exchange` (crypto.rs:294-315) once the opening
packets have crossed: parse the peer's packet, run the Diffie-Hellman
computation `dh` on the own ephemeral secret and the peer's public key,
and derive the symmetric key from the shared secret. The send/read
ordering of the two roles only sequences the packets on the wire and
does not change either side's data flow. -/
def key_exchange_side (dh : Bytes → Bytes → Bytes)
    (hkdfExpand : Option Bytes → Bytes → Bytes → Nat → Option Bytes)
    (private_key : Bytes) (peer_packet : Bytes) :
    Except String (Bytes × Bytes) :=
  match read_peer_public_key peer_packet with
  | .error e => .error e
  | .ok peer_public_key =>
    match generate_symmetric_key hkdfExpand (dh private_key peer_public_key) with
    | .error e => .error e
    | .ok encryption_key => .ok (encryption_key, dh private_key peer_public_key)

/-- C5: for a pair of honest peers completing the key exchange — each
feeding the other's sent opening packet into its own side — the two
shared secrets are byte-identical (the Diffie-Hellman agreement
property of X25519, hypothesis `hdh`), the two derived results agree,
and the 32-byte AEAD key is HKDF-SHA256 of the shared secret with empty
salt and info "encryption". -/
theorem key_exchange_agreement (dh : Bytes → Bytes → Bytes)
    (pub : Bytes → Bytes)
    (hkdfExpand : Option Bytes → Bytes → Bytes → Nat → Option Bytes)
    (skC skS : Bytes)
    (hlenS : (pub skS).length = KEY_LEN) (hlenC : (pub skC).length = KEY_LEN)
    (hdh : dh skC (pub skS) = dh skS (pub skC)) :
    key_exchange_side dh hkdfExpand skC (send_ephemeral_public_key (pub skS))
      = key_exchange_side dh hkdfExpand skS (send_ephemeral_public_key (pub skC)) ∧
    (∀ key, hkdfExpand none (dh skC (pub skS)) (strBytes "encryption") 32 = some key →
      key_exchange_side dh hkdfExpand skC (send_ephemeral_public_key (pub skS))
        = .ok (key, dh skC (pub skS))) := by
  have h1 : read_peer_public_key (send_ephemeral_public_key (pub skS))
      = .ok (pub skS) := read_send_roundtrip _ hlenS
  have h2 : read_peer_public_key (send_ephemeral_public_key (pub skC))
      = .ok (pub skC) := read_send_roundtrip _ hlenC
  constructor
  · unfold key_exchange_side
    rw [h1, h2]
    simp only []
    rw [hdh]
  · intro key hkey
    unfold key_exchange_side
    rw [h1]
    simp only []
    unfold generate_symmetric_key
    rw [hkey]

/-- Witness for C5 with a commutative toy Diffie-Hellman function and an
HKDF model that returns its input key material. -/
theorem key_exchange_agreement_witness :
    key_exchange_side (fun a b => [(a.headD 0 + b.headD 0) % 256])
        (fun _ ikm _ _ => some ikm) [3]
        (send_ephemeral_public_key (List.replicate 32 5))
      = key_exchange_side (fun a b => [(a.headD 0 + b.headD 0) % 256])
        (fun _ ikm _ _ => some ikm) [5]
        (send_ephemeral_public_key (List.replicate 32 3)) ∧
    key_exchange_side (fun a b => [(a.headD 0 + b.headD 0) % 256])
        (fun _ ikm _ _ => some ikm) [3]
        (send_ephemeral_public_key (List.replicate 32 5))
      = .ok ([8], [8]) := by
  have h := key_exchange_agreement (fun a b => [(a.headD 0 + b.headD 0) % 256])
    (fun sk => List.replicate 32 (sk.headD 0))
    (fun _ ikm _ _ => some ikm) [3] [5] (by decide) (by decide) (by decide)
  exact ⟨h.1, (h.2 [8] rfl).trans rfl⟩

/-- The `generate_session_hash` body (crypto.rs:258-292): derive both
verifying keys from the identities (either failure aborts), then hash
the client identity text, the server identity text, both verifying
keys, and the shared secret, in that order. `sha256` models the `sha2`
crate. -/
def generate_session_hash (sha256 : Bytes → Bytes)
    (client_id server_id : TorServiceId) (shared_secret : Bytes) :
    Except String Bytes :=
  match client_id.verifying_key with
  | .error e => .error ("Error getting public key from service ID: " ++ e)
  | .ok client_public_key =>
    match server_id.verifying_key with
    | .error e => .error ("Error getting public key from service ID: " ++ e)
    | .ok server_public_key =>
      .ok (sha256 (client_id.text ++ server_id.text ++ client_public_key ++
        server_public_key ++ shared_secret))

/-- The dialer's session hash call site (connection.rs:140): the local
identity is passed as client, the dialed peer as server. -/
def dialer_session_hash (sha256 : Bytes → Bytes)
    (local_id peer_id : TorServiceId) (shared_secret : Bytes) :
    Except String Bytes :=
  generate_session_hash sha256 local_id peer_id shared_secret

/-- The acceptor's session hash call site (connection.rs:215): the peer
is passed as client, the local identity as server. -/
def acceptor_session_hash (sha256 : Bytes → Bytes)
    (peer_id local_id : TorServiceId) (shared_secret : Bytes) :
    Except String Bytes :=
  generate_session_hash sha256 peer_id local_id shared_secret

/-- C4: `generate_session_hash` computes exactly the SHA-256 of
`client_id_text || server_id_text || client_verifying_key ||
server_verifying_key || shared_secret`, so any two calls with the same
client identity, server identity and shared secret — in particular the
dialer's call and the acceptor's call in an honest run — produce the
identical hash. -/
theorem generate_session_hash_spec (sha256 : Bytes → Bytes)
    (client server : TorServiceId) (secret cvk svk : Bytes)
    (hc : client.verifying_key = .ok cvk) (hs : server.verifying_key = .ok svk) :
    generate_session_hash sha256 client server secret
      = .ok (sha256 (client.text ++ server.text ++ cvk ++ svk ++ secret)) ∧
    dialer_session_hash sha256 client server secret
      = acceptor_session_hash sha256 client server secret := by
  constructor
  · unfold generate_session_hash
    rw [hc, hs]
  · rfl

/-- Witness for C4 with concrete identities and a toy hash. -/
theorem generate_session_hash_spec_witness :
    generate_session_hash (fun l => [l.length % 256])
        ⟨[10], .ok [1]⟩ ⟨[20], .ok [2]⟩ [9]
      = .ok [5] ∧
    dialer_session_hash (fun l => [l.length % 256]) ⟨[10], .ok [1]⟩ ⟨[20], .ok [2]⟩ [9]
      = acceptor_session_hash (fun l => [l.length % 256])
          ⟨[10], .ok [1]⟩ ⟨[20], .ok [2]⟩ [9] := by
  have h := generate_session_hash_spec (fun l => [l.length % 256])
    ⟨[10], .ok [1]⟩ ⟨[20], .ok [2]⟩ [9] [1] [2] rfl rfl
  exact ⟨h.1.trans rfl, h.2⟩

/-- The `AuthMessage` body (crypto.rs:113-130): the sender's identity
text and an Ed25519 signature. -/
structure AuthMessage where
  service_id : Bytes
  signature : Bytes
deriving DecidableEq

/-- The `generate_auth_data` body (crypto.rs:317-323): the session hash
followed by the identity text. -/
def generate_auth_data (id : TorServiceId) (session_hash : Bytes) : Bytes :=
  session_hash ++ id.text

/-- The `verify_auth_message` body (crypto.rs:325-338): derive the
verifying key from `peer_id`, and accept only when the embedded
service_id equals the textual form of `peer_id` and the signature
verifies over the auth data built from `peer_id`. `verify` models
Ed25519 verification (verifying key, data, signature). -/
def verify_auth_message (verify : Bytes → Bytes → Bytes → Bool)
    (auth_message : AuthMessage) (peer_id : TorServiceId)
    (session_hash : Bytes) : Except String Unit :=
  match peer_id.verifying_key with
  | .error e => .error e
  | .ok verifying_key =>
    if peer_id.text = auth_message.service_id then
      if verify verifying_key (generate_auth_data peer_id session_hash)
          auth_message.signature then .ok ()
      else .error "Signature verification error"
    else .error "ID sent in auth message does not match the peer ID"

/-- The acceptor's authentication phase (connection.rs:200-227), from
the received AuthMessage to the identity recorded in `ConnectionInfo`:
the peer id is parsed from the message's own service_id field, the
session hash is derived with it, the message is verified against it,
and on success this same id is reported upward. `from_str` models
`TorServiceId::from_str`. -/
def acceptor_auth_phase (sha256 : Bytes → Bytes)
    (verify : Bytes → Bytes → Bytes → Bool)
    (from_str : Bytes → Except String TorServiceId)
    (local_id : TorServiceId) (shared_secret : Bytes)
    (peer_auth_message : AuthMessage) : Except String TorServiceId :=
  match from_str peer_auth_message.service_id with
  | .error e => .error ("Error parsing service ID from auth message: " ++ e)
  | .ok peer_id =>
    match generate_session_hash sha256 peer_id local_id shared_secret with
    | .error e => .error ("Error generating session hash: " ++ e)
    | .ok session_hash =>
      match verify_auth_message verify peer_auth_message peer_id session_hash with
      | .error e => .error e
      | .ok _ => .ok peer_id

/-- C3 counterexample: on the acceptor side the identity verified
against is the one embedded in the received message itself, not an
independently expected one. With a signature that verifies for the
embedded identity, an AuthMessage naming an identity different from any
identity the acceptor could have expected (here "alice") is accepted,
and that embedded identity is what is reported upward. -/
theorem acceptor_accepts_any_embedded_id :
    strBytes "mallory" ≠ strBytes "alice" ∧
    acceptor_auth_phase (fun _ => []) (fun _ _ _ => true)
        (fun s => .ok ⟨s, .ok []⟩) ⟨strBytes "server", .ok []⟩ []
        ⟨strBytes "mallory", []⟩
      = .ok ⟨strBytes "mallory", .ok []⟩ := by
  exact ⟨by decide, rfl⟩

/-- C3 amended: on the dialing side — where the expected peer identity
is parsed from the dial address before the handshake —
`verify_auth_message` fails for every AuthMessage whose embedded
service_id differs from the expected identity's text, whatever the
signature; on the acceptor side the identity verified against, and on
success reported upward, is parsed from the message itself. -/
theorem verify_auth_mismatch_spec (verify : Bytes → Bytes → Bytes → Bool)
    (sha256 : Bytes → Bytes) (from_str : Bytes → Except String TorServiceId)
    (msg : AuthMessage) (peer_id local_id : TorServiceId)
    (session_hash shared_secret : Bytes)
    (hmismatch : peer_id.text ≠ msg.service_id)
    (hround : ∀ s id, from_str s = .ok id → id.text = s) :
    (∃ e, verify_auth_message verify msg peer_id session_hash = .error e) ∧
    (∀ pid, acceptor_auth_phase sha256 verify from_str local_id shared_secret msg
        = .ok pid → pid.text = msg.service_id) := by
  constructor
  · unfold verify_auth_message
    cases h : peer_id.verifying_key with
    | error e => exact ⟨e, rfl⟩
    | ok vk =>
      simp only []
      rw [if_neg hmismatch]
      exact ⟨_, rfl⟩
  · intro pid hpid
    unfold acceptor_auth_phase at hpid
    cases hfs : from_str msg.service_id with
    | error e => rw [hfs] at hpid; simp at hpid
    | ok pid2 =>
      rw [hfs] at hpid
      simp only [] at hpid
      cases hh : generate_session_hash sha256 pid2 local_id shared_secret with
      | error e => rw [hh] at hpid; simp at hpid
      | ok hash =>
        rw [hh] at hpid
        simp only [] at hpid
        cases hv : verify_auth_message verify msg pid2 hash with
        | error e => rw [hv] at hpid; simp at hpid
        | ok u =>
          rw [hv] at hpid
          simp only [Except.ok.injEq] at hpid
          rw [← hpid]
          exact hround _ _ hfs

/-- Witness for the amended C3 at a concrete mismatching message. -/
theorem verify_auth_mismatch_spec_witness :
    strBytes "alice" ≠ strBytes "mallory" ∧
    (∃ e, verify_auth_message (fun _ _ _ => true)
        ⟨strBytes "mallory", [1]⟩ ⟨strBytes "alice", .ok []⟩ [] = .error e) := by
  have h := verify_auth_mismatch_spec (fun _ _ _ => true) (fun _ => [])
    (fun s => .ok ⟨s, .ok []⟩) ⟨strBytes "mallory", [1]⟩
    ⟨strBytes "alice", .ok []⟩ ⟨strBytes "server", .ok []⟩ [] []
    (by decide) (fun s id hid => by cases hid; rfl)
  exact ⟨by decide, h.1⟩

/-- Outcome of the tail of `connect`. -/
inductive ConnectResult where
  | errored (msg : String)
  | live
  | panicked
deriving DecidableEq

/-- The tail of `connect` (connection.rs:161-183): one
`DecryptingReader::read` awaiting the ConnectionAuthorizedMessage
record. An `Err` is propagated by the `?` operator and no connection
surfaces; but the `Ok` value — `Some` record or `None` end of stream —
is discarded, and `connect` goes on to emit `NewConnection` and return
a live connection in both cases. -/
def connect_await_authorized (authorized_read : ReadResult Unit) :
    ConnectResult :=
  match authorized_read with
  | .body _ => .live
  | .endOfStream => .live
  | .err e => .errored e
  | .panicked => .panicked

/-- C8 evaluation at the failing input: when the peer closes the stream
before sending the ConnectionAuthorizedMessage, the framed read yields
no record (`Ok(None)`), yet `connect` still emits `NewConnection` and
returns a live connection, because the read result is discarded. The
specification requires that no `NewConnection` be emitted in this
execution. -/
theorem connect_eos_still_goes_live :
    DecryptingReader.read idAEAD (fun _ => some ()) none
        = ReadResult.endOfStream ∧
    connect_await_authorized
        (DecryptingReader.read idAEAD (fun _ => some ()) none)
      = ConnectResult.live :=
  ⟨rfl, rfl⟩

/-- Events carried by a connection's inbox. The enum is declared in the
engine module, whose matching revision is not part of src/; the
variants are the three the specification names for ConnectionChannel —
Message, ConnectionAuthorized, CloseConnection — plus one stand-in for
the further variants that the wildcard arm of the source's match
covers. -/
inductive ConnectionEvent where
  | message (chat : Bytes)
  | connectionAuthorized
  | closeConnection
  | otherVariant
deriving DecidableEq

/-- Events a connection actor sends to the engine
(connection.rs:55-67). -/
inductive EngineEventKind where
  | message (chat : Bytes)
  | errorEvent (msg : String)
  | connectionClosed
deriving DecidableEq

/-- Loop control decided by one `handle_connection` iteration. -/
inductive LoopControl where
  | continueLoop
  | breakLoop
  | panicked
deriving DecidableEq

/-- The arm of the `tokio::select!` that fired in an iteration: a
result from the record reader, or an inbox read (`none` models
`rx.recv()` returning empty because every sender was dropped). -/
inductive SelectArm where
  | reader (result : ReadResult Bytes)
  | inbox (event : Option ConnectionEvent)

/-- One iteration of the `Connection::handle_connection` loop
(connection.rs:49-98), mapping the fired select arm to the loop control
and the engine events sent. The `if let Some(event)` on the inbox arm
silently skips an empty inbox read, so a closed inbox leaves the loop
running. -/
def handle_connection_step (arm : SelectArm) :
    LoopControl × List EngineEventKind :=
  match arm with
  | .reader (.body chat) => (.continueLoop, [.message chat])
  | .reader .endOfStream => (.breakLoop, [.connectionClosed])
  | .reader (.err e) => (.breakLoop, [.errorEvent e, .connectionClosed])
  | .reader .panicked => (.panicked, [])
  | .inbox (some (.message _)) => (.continueLoop, [])
  | .inbox (some .connectionAuthorized) => (.continueLoop, [])
  | .inbox (some .closeConnection) => (.breakLoop, [])
  | .inbox (some .otherVariant) => (.breakLoop, [])
  | .inbox none => (.continueLoop, [])

/-- C9 evaluation at the failing input: an inbox read that returns
empty — the engine-side sender was dropped — is silently ignored: the
actor continues looping and emits nothing, whereas an explicit
CloseConnection event breaks the loop. The empty read is therefore not
treated as CloseConnection, contrary to the specification's
cancellation path. -/
theorem inbox_closed_not_treated_as_close :
    handle_connection_step (.inbox none) = (LoopControl.continueLoop, []) ∧
    handle_connection_step (.inbox (some .closeConnection))
      = (LoopControl.breakLoop, []) ∧
    handle_connection_step (.inbox none)
      ≠ handle_connection_step (.inbox (some .closeConnection)) := by
  exact ⟨rfl, rfl, by decide⟩

end Voynich
